import Mathlib

/-!
Verification of the MCP testing-agent server (`server.py`): a shallow
embedding of its pure decision logic in Lean 4.

External effects (subprocess invocations, the filesystem, XML decoding)
are modelled as explicit inputs: a `_run_cmd` result becomes a record of
exit code and captured text supplied to the function, the on-disk state
of an XML report becomes a `CovFile` value, and the filesystem seen by
the skeleton generator becomes an association list from paths to
contents.  Python strings are Lean `String`s, Python ints are `Int`/`Nat`,
and Python floats are modelled as `ℚ` (all coverage percentages in scope
are exact decimals, so no binary-float rounding is observable in the
properties proved here).  A Python exception escaping a function is
modelled as the `Except.error` case of its result type.
-/

set_option autoImplicit false

/-- ASCII whitespace as recognized by Python `str.strip()`. -/
def isWsChar (c : Char) : Bool :=
  c = ' ' ∨ c = '\t' ∨ c = '\n' ∨ c = '\r' ∨ c = '\x0b' ∨ c = '\x0c'

/-- Python `str.strip()` on a character list. -/
def stripChars (l : List Char) : List Char :=
  ((l.dropWhile isWsChar).reverse.dropWhile isWsChar).reverse

/-- Python `str.strip()`. -/
def pyStrip (s : String) : String :=
  String.mk (stripChars s.data)

/-- Split a character list at newline characters. -/
def splitNl : List Char → List (List Char)
  | [] => [[]]
  | '\n' :: r => [] :: splitNl r
  | c :: r =>
      match splitNl r with
      | [] => [[c]]
      | h :: t => (c :: h) :: t

/-- `stdout.splitlines()` filtered by `if l.strip()`: the non-blank lines,
kept unstripped, as in `server.py` lines 103 and 119. -/
def linesOf (s : String) : List String :=
  ((splitNl s.data).filter (fun l => !(stripChars l).isEmpty)).map String.mk

/-- Python `os.path.join(a, b)` for POSIX paths: an absolute `b` discards
`a`; otherwise the parts are joined with a single separator. -/
def osPathJoin (a b : String) : String :=
  if b.data.head? = some '/' then b
  else if a.data = [] ∨ a.data.getLast? = some '/' then a ++ b
  else a ++ "/" ++ b

/-- Digits of a decimal numeral folded into a `Nat`. -/
def digitsToNat (l : List Char) : Nat :=
  l.foldl (fun acc c => acc * 10 + (c.toNat - 48)) 0

/-- Python `int(s)` on a decimal string: optional surrounding whitespace,
optional sign, then at least one digit; anything else raises `ValueError`
(modelled as `none`).  (Underscore separators and non-ASCII digits,
which CPython also accepts, do not occur in coverage reports and are not
modelled.) -/
def parseIntPy (s : String) : Option Int :=
  let t := stripChars s.data
  let signAndDigits : Bool × List Char :=
    match t with
    | '-' :: r => (true, r)
    | '+' :: r => (false, r)
    | r => (false, r)
  let neg := signAndDigits.1
  let ds := signAndDigits.2
  if ds = [] ∨ ¬ ds.all Char.isDigit then none
  else some (if neg then -(digitsToNat ds : Int) else (digitsToNat ds : Int))

/-- Two-decimal fixed-point rendering of a non-negative rational, the
model of Python's `f"{percent:.2f}"`.  (Python rounds the binary double
half-to-even; every percentage reachable in the verified properties is
an exact multiple of 1/100, where the two renderings agree.) -/
def fmt2 (q : ℚ) : String :=
  let n : Int := ⌊q * 100 + 1 / 2⌋
  let m := n.toNat
  toString (m / 100) ++ "." ++ (if m % 100 < 10 then "0" else "") ++ toString (m % 100)

/-- Truthiness of the Python `jacoco_xml: str = None` parameter:
`None` and the empty string are falsy. -/
def pyTruthy : Option String → Bool
  | none => false
  | some s => s ≠ ""

/-! ### `fnmatch` glob matching

`git_add_all` excludes paths with `fnmatch.fnmatch(path, pat)`
(`server.py` line 88).  On POSIX `os.path.normcase` is the identity, so
`fnmatch` is pure glob matching: `*` matches any character sequence
(including `/`), `?` any single character, and `[...]` a character
class with `!` negation and `a-b` ranges; a `[` with no closing `]` is a
literal. -/

/-- One token of a compiled glob pattern. -/
inductive GTok where
  | star
  | qmark
  | lit (c : Char)
  | cls (neg : Bool) (items : List (Char × Char))
  deriving DecidableEq

/-- Scan a character-class body up to the closing `]`, collecting single
characters as degenerate ranges; `a-b` is a range, while a `-` just
before the closing `]` is a literal.  `none` when the class is never
closed. -/
def scanClassBody : List Char → List (Char × Char) → Option (List (Char × Char) × List Char)
  | [], _ => none
  | ']' :: r, acc => some (acc.reverse, r)
  | a :: '-' :: b :: r, acc =>
      if b = ']' then scanClassBody (']' :: r) (('-', '-') :: (a, a) :: acc)
      else scanClassBody r ((a, b) :: acc)
  | a :: r, acc => scanClassBody r ((a, a) :: acc)

/-- Parse the interior of a bracket expression (the part after `[`):
leading `!` negates, a `]` in first position is a literal member. -/
def parseCl (l : List Char) : Option (Bool × List (Char × Char) × List Char) :=
  let negAndRest : Bool × List Char :=
    match l with
    | '!' :: r => (true, r)
    | r => (false, r)
  let neg := negAndRest.1
  match negAndRest.2 with
  | ']' :: r =>
      match scanClassBody r [(']', ']')] with
      | some (items, rest) => some (neg, items, rest)
      | none => none
  | r =>
      match scanClassBody r [] with
      | some (items, rest) => some (neg, items, rest)
      | none => none

/-- Compile a glob pattern to tokens.  `fuel` bounds the recursion and is
instantiated with the pattern length, which suffices because every step
consumes at least one character. -/
def tokenize (fuel : Nat) (l : List Char) : List GTok :=
  match fuel, l with
  | 0, _ => []
  | _ + 1, [] => []
  | f + 1, '*' :: r => .star :: tokenize f r
  | f + 1, '?' :: r => .qmark :: tokenize f r
  | f + 1, '[' :: r =>
      match parseCl r with
      | some (neg, items, rest) => .cls neg items :: tokenize f rest
      | none => .lit '[' :: tokenize f r
  | f + 1, c :: r => .lit c :: tokenize f r

/-- Character membership in a list of inclusive ranges. -/
def inRanges (items : List (Char × Char)) (c : Char) : Bool :=
  items.any (fun p => p.1 ≤ c ∧ c ≤ p.2)

/-- Match a compiled glob against a character list.  `fuel` bounds the
recursion; every step strictly decreases the combined length of the two
lists, so `fuel = ps.length + cs.length + 1` always suffices and the
`fuel = 0` fallback is unreachable from `fnmatchPy`. -/
def matchToks (fuel : Nat) (ps : List GTok) (cs : List Char) : Bool :=
  match fuel, ps, cs with
  | 0, _, _ => false
  | _ + 1, [], [] => true
  | _ + 1, [], _ :: _ => false
  | f + 1, .star :: ps, [] => matchToks f ps []
  | f + 1, .star :: ps, c :: cs => matchToks f ps (c :: cs) || matchToks f (.star :: ps) cs
  | f + 1, .qmark :: ps, _ :: cs => matchToks f ps cs
  | f + 1, .cls neg items :: ps, c :: cs => (neg != inRanges items c) && matchToks f ps cs
  | f + 1, .lit a :: ps, c :: cs => (a = c) && matchToks f ps cs
  | _ + 1, _ :: _, [] => false

/-- `fnmatch.fnmatch(name, pat)` on POSIX. -/
def fnmatchPy (name pat : String) : Bool :=
  let toks := tokenize pat.length pat.data
  matchToks (toks.length + name.data.length + 1) toks name.data

/-! ### XML element trees

`xml.etree.ElementTree` elements, as far as the coverage code inspects
them: a tag, an attribute dictionary, and child elements in document
order. -/

inductive XEl where
  | el (tag : String) (attrs : List (String × String)) (children : List XEl)

def XEl.tag : XEl → String
  | .el t _ _ => t

def XEl.attrList : XEl → List (String × String)
  | .el _ a _ => a

def XEl.children : XEl → List XEl
  | .el _ _ c => c

/-- `element.get(key)`: attribute lookup, `None` when absent. -/
def XEl.get (x : XEl) (k : String) : Option String :=
  (x.attrList.find? (fun p => p.1 = k)).map (fun p => p.2)

mutual
/-- Strict descendants of an element in document order: the model of
`element.findall('.//…')` before tag filtering. -/
def XEl.descend : XEl → List XEl
  | .el _ _ cs => XEl.descendList cs

def XEl.descendList : List XEl → List XEl
  | [] => []
  | x :: xs => x :: XEl.descend x ++ XEl.descendList xs
end

/-- `int(element.get(key))`: a missing attribute raises `TypeError`, a
non-integer one `ValueError`. -/
def counterVal (c : XEl) (key : String) : Except String Int :=
  match c.get key with
  | none => .error ("TypeError: int() argument is None for attribute " ++ key)
  | some s =>
      match parseIntPy s with
      | none => .error ("ValueError: invalid literal for int(): " ++ s)
      | some n => .ok n

/-- State of the report file handed to a parse call: absent path, present
but undecodable (`ET.parse` raises, message carried), or a decoded tree. -/
inductive CovFile where
  | absent
  | malformed (msg : String)
  | parsed (root : XEl)

/-- Result dictionary of `_compute_jacoco_coverage`. -/
inductive CovResult where
  | ok (percent : ℚ) (covered : Int) (missed : Int)
  | err (msg : String)
  deriving DecidableEq

/-- The accumulation loop of `_compute_jacoco_coverage` over the elements
returned by `findall('.//counter')`: LINE counters contribute their
`missed`/`covered` attributes, and the first malformed attribute raises
(short-circuits to `error`), exactly as the Python loop would. -/
def sumLine : List XEl → Except String (Int × Int)
  | [] => .ok (0, 0)
  | c :: rest =>
      if c.get "type" = some "LINE" then
        match counterVal c "missed" with
        | .error e => .error e
        | .ok m =>
            match counterVal c "covered" with
            | .error e => .error e
            | .ok cv =>
                match sumLine rest with
                | .error e => .error e
                | .ok tot => .ok (tot.1 + m, tot.2 + cv)
      else sumLine rest

/-- `_compute_jacoco_coverage(jacoco_xml_path)` (`server.py` 14–35): the
whole body after the existence check runs inside `try/except`, so any
parse or attribute failure becomes the `err` dictionary. -/
def _compute_jacoco_coverage (env : String → CovFile) (path : String) : CovResult :=
  match env path with
  | .absent => .err ("File not found: " ++ path)
  | .malformed m => .err m
  | .parsed root =>
      match sumLine ((XEl.descend root).filter (fun c => c.tag = "counter")) with
      | .error m => .err m
      | .ok tot =>
          let total := tot.1 + tot.2
          .ok (if 0 < total then (tot.2 : ℚ) / (total : ℚ) * 100 else 0) tot.2 tot.1

/-! ### `git_commit` (`server.py` 108–140)

The staged-diff query, the report file and the `git commit` invocation
are environment inputs: `stagedStdout` is the captured stdout of
`git diff --name-only --cached`, `covEnv` gives the state of any report
path, and `commitRC` is the exit code `git commit -m <msg>` would
return.  Each constructor of `CommitR` corresponds to one `return`
statement of the Python function; in particular a `committedR` result
means the commit subprocess was invoked (with the recorded message) and
any other result means it was not. -/

inductive PyErr where
  | unboundLocal (name : String)
  deriving DecidableEq

inductive CommitR where
  /-- line 121: `{"ok": False, "msg": "No staged changes to commit."}` -/
  | noStagedR (msg : String)
  /-- line 132: the threshold abort; carries the computed coverage and
  the threshold (the source also renders them into a message string). -/
  | thresholdR (percent : ℚ) (threshold : ℚ) (covered missed : Int)
  /-- line 140: the commit was executed with `message`; `okFlag` is
  `returncode == 0` and `coverage` is the `coverage_info` value. -/
  | committedR (okFlag : Bool) (message : String) (coverage : Option (ℚ × Int × Int))
  deriving DecidableEq

def git_commit (stagedStdout : String) (covEnv : String → CovFile)
    (commitRC : String → Int) (message : String) (include_coverage : Bool)
    (jacoco_xml : Option String) (coverage_threshold : Option ℚ) :
    Except PyErr CommitR :=
  let staged := linesOf stagedStdout
  if staged.isEmpty then
    .ok (.noStagedR "No staged changes to commit.")
  else
    if include_coverage && pyTruthy jacoco_xml then
      match _compute_jacoco_coverage covEnv (jacoco_xml.getD "") with
      | .ok percent covered missed =>
          let fm := message ++ " | Coverage: " ++ fmt2 percent ++ "% (" ++
            toString covered ++ "/" ++ toString (covered + missed) ++ ")"
          match coverage_threshold with
          | some t =>
              if percent < t then .ok (.thresholdR percent t covered missed)
              else .ok (.committedR (commitRC fm == 0) fm (some (percent, covered, missed)))
          | none => .ok (.committedR (commitRC fm == 0) fm (some (percent, covered, missed)))
      | .err _ =>
          -- Lines 134–136: the branch first builds the
          -- "Coverage: unknown (…)" message and then immediately
          -- overwrites it with an f-string that reads the local
          -- `percent`, which is unassigned on this path, so the call
          -- raises `UnboundLocalError` before any commit is attempted.
          .error (.unboundLocal "percent")
    else
      .ok (.committedR (commitRC message == 0) message none)

/-! ### `git_add_all` (`server.py` 68–105) -/

/-- The default `exclude_patterns` list of `git_add_all`. -/
def defaultExcludePatterns : List String :=
  ["target/**", "**/target/**", "**/*.class", "**/*.jar", "*.log",
   "**/.idea/**", "**/.vscode/**", "**/*.pyc", "node_modules/**"]

/-- The staging filter loop (lines 81–92): every non-blank porcelain
status line yields a path (`ln[3:]`), kept unless some pattern matches
it or its repo-root-joined form. -/
def filterPaths (repo_dir : String) (pats : List String) (statusStdout : String) :
    List String :=
  (linesOf statusStdout).filterMap (fun ln =>
    let path := String.mk (ln.data.drop 3)
    if pats.any (fun pat => fnmatchPy path pat || fnmatchPy (osPathJoin repo_dir path) pat)
    then none else some path)

structure AddAllR where
  /-- whether `git add -- <files>` was invoked at all -/
  addInvoked : Bool
  /-- the file arguments passed to `git add` -/
  addedFiles : List String
  okFlag : Bool
  deriving DecidableEq

def git_add_all (repo_dir statusStdout : String)
    (exclude_patterns : Option (List String)) (addRC : List String → Int) :
    AddAllR :=
  let pats := exclude_patterns.getD defaultExcludePatterns
  let files := filterPaths repo_dir pats statusStdout
  if files.isEmpty then ⟨false, [], true⟩
  else ⟨true, files, addRC files == 0⟩

/-! ### `git_push` (`server.py` 143–163)

`branchQuery`, `plainPush` and `upPush` are the `_run_cmd` results the
environment would return for the branch lookup and for the two possible
push invocations; `attempts` records the push commands actually issued,
in order. -/

structure RunResult where
  returncode : Int
  stdout : String
  stderr : String
  deriving DecidableEq

structure PushR where
  okFlag : Bool
  branch : Option String
  attempts : List (List String)
  deriving DecidableEq

def git_push (remote : String) (branchQuery plainPush upPush : RunResult) : PushR :=
  let branch := pyStrip branchQuery.stdout
  if branch = "" then ⟨false, none, []⟩
  else if plainPush.returncode == 0 then
    ⟨true, some branch, [["git", "push", remote, branch]]⟩
  else
    ⟨upPush.returncode == 0, some branch,
     [["git", "push", remote, branch], ["git", "push", "-u", remote, branch]]⟩

/-! ### `analyze_coverage` (`server.py` 323–374)

The candidate search only decides which file is parsed; the claims are
about what happens once a file is (or is not) found, so the input is
the state of the report file that the search settles on.  `ET.parse` is
NOT wrapped in `try` here, and neither are the `int(...)` conversions
in the class loop, so those failures escape as exceptions
(`Except.error`); only the not-found case returns a structured
`{"ok": False}` dictionary. -/

structure UncoveredUnit where
  /-- dict key `package` (`pkg.get('name')`, possibly `None`) -/
  pkg : Option String
  /-- dict key `class` (`cls.get('name')`, possibly `None`) -/
  cls : Option String
  missed : Int
  covered : Int
  deriving DecidableEq

/-- Python `f"{x}"` on an optional string. -/
def pyStr : Option String → String
  | none => "None"
  | some s => s

/-- The recommendation string built at line 372. -/
def recText (u : UncoveredUnit) : String :=
  "Increase tests for " ++ pyStr u.pkg ++ "." ++ pyStr u.cls ++
    " (missed lines: " ++ toString u.missed ++ ")"

/-- The per-class counter loop (lines 358–368): each LINE counter has
both attributes converted with `int` (either may raise, aborting
everything) and contributes one entry when `missed > 0`. -/
def classLineUnits (pkgName clsName : Option String) :
    List XEl → Except String (List UncoveredUnit)
  | [] => .ok []
  | c :: rest =>
      if c.get "type" = some "LINE" then
        match counterVal c "missed" with
        | .error e => .error e
        | .ok m =>
            match counterVal c "covered" with
            | .error e => .error e
            | .ok cv =>
                match classLineUnits pkgName clsName rest with
                | .error e => .error e
                | .ok l => .ok (if 0 < m then ⟨pkgName, clsName, m, cv⟩ :: l else l)
      else classLineUnits pkgName clsName rest

/-- The loop over `pkg.findall('class')` (direct children). -/
def classesUnits (pkgName : Option String) :
    List XEl → Except String (List UncoveredUnit)
  | [] => .ok []
  | cls :: rest =>
      match classLineUnits pkgName (cls.get "name")
          (cls.children.filter (fun c => c.tag = "counter")) with
      | .error e => .error e
      | .ok l1 =>
          match classesUnits pkgName rest with
          | .error e => .error e
          | .ok l2 => .ok (l1 ++ l2)

/-- The loop over `root.findall('.//package')`. -/
def packagesUnits : List XEl → Except String (List UncoveredUnit)
  | [] => .ok []
  | pkg :: rest =>
      match classesUnits (pkg.get "name")
          (pkg.children.filter (fun c => c.tag = "class")) with
      | .error e => .error e
      | .ok l1 =>
          match packagesUnits rest with
          | .error e => .error e
          | .ok l2 => .ok (l1 ++ l2)

/-- State of the report file that the candidate search resolves to. -/
inductive AFile where
  | notFound
  | malformed (msg : String)
  | parsed (root : XEl)

inductive AnalyzeR where
  /-- line 347: the structured not-found dictionary -/
  | reportNotFound (msg : String)
  /-- line 374: the report dictionary -/
  | okR (uncovered : List UncoveredUnit) (recommendations : List String)
  deriving DecidableEq

def analyze_coverage (file : AFile) : Except String AnalyzeR :=
  match file with
  | .notFound =>
      .ok (.reportNotFound "JaCoCo XML report not found. Run Maven tests with JaCoCo enabled.")
  | .malformed m => .error m
  | .parsed root =>
      match packagesUnits ((XEl.descend root).filter (fun p => p.tag = "package")) with
      | .error e => .error e
      | .ok uncovered => .ok (.okR uncovered (uncovered.map recText))

/-! ### `generate_tests` (`server.py` 267–320)

The filesystem is an association list from paths to contents; a write
appends an entry.  The walk order of `rglob` is the order of `files`.
The regex extraction of the package name and the public-method list is
a pure function of the file text, abstracted here as the parameters
`extractPkg` (first `package` declaration or `""`) and `extractMethods`
(the `(name, args)` matches of the method pattern): the claims proved
below hold for every such extraction function, the concrete regexes of
the source included.  Directory creation (`mkdir`) does not change the
path-to-contents map. -/

structure SrcFile where
  /-- `java_file.stem` -/
  stem : String
  /-- the file contents read at line 289 -/
  text : String

/-- `test_root / pkg_path / (test_class_name + ".java")` with
`pkg_path = package.replace('.', os.sep)`; `pathlib` drops empty
components. -/
def targetPath (test_root pkg stem : String) : String :=
  let pkgPath :=
    if pkg = "" then ""
    else String.mk (pkg.data.map (fun c => if c = '.' then '/' else c))
  (if pkgPath = "" then test_root else test_root ++ "/" ++ pkgPath) ++
    "/" ++ stem ++ "Test.java"

/-- The skeleton text assembled in `body_lines` (lines 307–316). -/
def skeletonText (pkg clsTest : String) (methods : List (String × String)) : String :=
  (if pkg = "" then "" else "package " ++ pkg ++ ";\n") ++
  "import org.junit.jupiter.api.Test;\nimport static org.junit.jupiter.api.Assertions.*;\n" ++
  "public class " ++ clsTest ++ " \x7b\n" ++
  String.join (methods.map (fun m =>
    "    @Test\n    public void test_" ++ m.1 ++ "() \x7b\n        // TODO: add assertions for " ++
      m.1 ++ "\n        fail(\"Not yet implemented\");\n    \x7d\n\n")) ++
  "\x7d\n"

/-- First-match lookup in the path-to-contents map. -/
def fsFind : List (String × String) → String → Option String
  | [], _ => none
  | e :: rest, p => if e.1 = p then some e.2 else fsFind rest p

structure GenR where
  fs : List (String × String)
  created : Nat
  deriving DecidableEq

/-- One iteration of the `for java_file in src_root.rglob("*.java")`
loop: skip when no method matches, skip when the target exists,
otherwise write the skeleton and count it. -/
def genStep (extractPkg : String → String)
    (extractMethods : String → List (String × String)) (test_root : String)
    (acc : GenR) (f : SrcFile) : GenR :=
  let methods := extractMethods f.text
  if methods.isEmpty then acc
  else
    let pkg := extractPkg f.text
    let tpath := targetPath test_root pkg f.stem
    if (fsFind acc.fs tpath).isSome then acc
    else ⟨acc.fs ++ [(tpath, skeletonText pkg (f.stem ++ "Test") methods)], acc.created + 1⟩

def generate_tests (extractPkg : String → String)
    (extractMethods : String → List (String × String)) (test_root : String)
    (fs0 : List (String × String)) (files : List SrcFile) : GenR :=
  files.foldl (genStep extractPkg extractMethods test_root) ⟨fs0, 0⟩

/-! ### Specification-side definitions

These follow the wording of the spec (sums of LINE counters, one unit
per class with positive missed count) and are proved to coincide with
the source-derived functions above. -/

/-- `int(c.get(key))` as a partial value: `some` exactly when the
attribute is present and parses as an integer. -/
def counterInt (c : XEl) (key : String) : Option Int :=
  (c.get key).bind parseIntPy

/-- Every LINE-kind counter element in the whole report tree. -/
def lineCounters (root : XEl) : List XEl :=
  ((XEl.descend root).filter (fun c => c.tag = "counter")).filter
    (fun c => c.get "type" = some "LINE")

/-- Sum of the `missed` attributes of every LINE counter in the tree. -/
def specMissedTotal (root : XEl) : Int :=
  ((lineCounters root).filterMap (fun c => counterInt c "missed")).sum

/-- Sum of the `covered` attributes of every LINE counter in the tree. -/
def specCoveredTotal (root : XEl) : Int :=
  ((lineCounters root).filterMap (fun c => counterInt c "covered")).sum

/-- Both integer attributes of a counter are present and parse. -/
def counterOK (c : XEl) : Prop :=
  (counterInt c "missed").isSome = true ∧ (counterInt c "covered").isSome = true

instance decCounterOK (c : XEl) : Decidable (counterOK c) := by
  unfold counterOK
  infer_instance

/-- Direct children with a given tag (`element.findall('tag')`). -/
def taggedChildren (x : XEl) (t : String) : List XEl :=
  x.children.filter (fun c => c.tag = t)

/-- The package elements visited by `root.findall('.//package')`. -/
def reportPackages (root : XEl) : List XEl :=
  (XEl.descend root).filter (fun p => p.tag = "package")

/-- The LINE counter of a class (the spec speaks of "the class's LINE
counter", presupposing at most one). -/
def theLineCounter (cls : XEl) : Option XEl :=
  (taggedChildren cls "counter").find? (fun c => c.get "type" = some "LINE")

/-- The `UncoveredUnit` a class contributes according to the spec: one
exactly when its LINE counter has `missed > 0`. -/
def unitOfClass (pkgName : Option String) (cls : XEl) : Option UncoveredUnit :=
  match theLineCounter cls with
  | none => none
  | some c =>
      match counterInt c "missed", counterInt c "covered" with
      | some m, some cv => if 0 < m then some ⟨pkgName, cls.get "name", m, cv⟩ else none
      | _, _ => none

/-- Spec-side gap-analysis list: walk the packages in report order and
emit one unit per class whose LINE counter has `missed > 0`. -/
def uncoveredSpec (root : XEl) : List UncoveredUnit :=
  (reportPackages root).flatMap (fun pkg =>
    (taggedChildren pkg "class").filterMap (unitOfClass (pkg.get "name")))

/-- Code-side characterization of one class's contribution: one entry
per LINE counter with positive `missed`, in counter order. -/
def unitsOfCounters (pkgName clsName : Option String) (counters : List XEl) :
    List UncoveredUnit :=
  (counters.filter (fun c => c.get "type" = some "LINE")).filterMap (fun c =>
    match counterInt c "missed", counterInt c "covered" with
    | some m, some cv => if 0 < m then some ⟨pkgName, clsName, m, cv⟩ else none
    | _, _ => none)

/-- Every LINE counter of the class parses. -/
def classCountersOK (cls : XEl) : Prop :=
  ∀ c ∈ taggedChildren cls "counter", c.get "type" = some "LINE" → counterOK c

instance decClassCountersOK (cls : XEl) : Decidable (classCountersOK cls) := by
  unfold classCountersOK
  infer_instance

/-- Every class of every package of the report has parseable LINE
counters. -/
def reportClassesOK (root : XEl) : Prop :=
  ∀ pkg ∈ reportPackages root, ∀ cls ∈ taggedChildren pkg "class", classCountersOK cls

instance decReportClassesOK (root : XEl) : Decidable (reportClassesOK root) := by
  unfold reportClassesOK
  infer_instance

/-- The class has at most one LINE counter. -/
def classLineUnique (cls : XEl) : Prop :=
  ((taggedChildren cls "counter").filter
    (fun c => c.get "type" = some "LINE")).length ≤ 1

instance decClassLineUnique (cls : XEl) : Decidable (classLineUnique cls) := by
  unfold classLineUnique
  infer_instance

/-- Every class of the report has at most one LINE counter. -/
def reportLineUnique (root : XEl) : Prop :=
  ∀ pkg ∈ reportPackages root, ∀ cls ∈ taggedChildren pkg "class", classLineUnique cls

instance decReportLineUnique (root : XEl) : Decidable (reportLineUnique root) := by
  unfold reportLineUnique
  infer_instance

/-! ### Sample reports used as concrete inputs -/

def mkLineCounter (missed covered : String) : XEl :=
  .el "counter" [("type", "LINE"), ("missed", missed), ("covered", covered)] []

/-- One package, one class, LINE counter missed=15 covered=85. -/
def report85 : XEl :=
  .el "report" []
    [.el "package" [("name", "com.ex")]
      [.el "class" [("name", "Foo")] [mkLineCounter "15" "85"]]]

/-- A report with no counters at all. -/
def reportEmpty : XEl := .el "report" [] []

/-- Two classes: one fully covered, one with three missed lines. -/
def reportTwoClasses : XEl :=
  .el "report" []
    [.el "package" [("name", "com.ex")]
      [.el "class" [("name", "Foo")] [mkLineCounter "0" "10"],
       .el "class" [("name", "Bar")] [mkLineCounter "3" "5"]]]

/-- A good class followed by a class whose LINE counter lacks its
`missed` attribute. -/
def reportBadClass : XEl :=
  .el "report" []
    [.el "package" [("name", "com.ex")]
      [.el "class" [("name", "Good")] [mkLineCounter "2" "8"],
       .el "class" [("name", "Bad")]
         [.el "counter" [("type", "LINE"), ("covered", "4")] []]]]

/-! ## Theorems -/

theorem floor_8500 : ⌊(85 : ℚ) * 100 + 1 / 2⌋ = (8500 : ℤ) := by
  rw [Int.floor_eq_iff]
  constructor <;> norm_num

/-- The message fragment for an 85 percent report renders as `85.00`. -/
theorem fmt2_85 : fmt2 85 = "85.00" := by
  simp only [fmt2, floor_8500]
  rfl

/-- Aggregating `report85` yields 85 percent from 85 covered and 15
missed lines. -/
theorem compute_report85 :
    _compute_jacoco_coverage (fun _ => CovFile.parsed report85) "r.xml" =
      .ok 85 85 15 := by
  have h1 : sumLine ((XEl.descend report85).filter (fun c => c.tag = "counter")) =
      .ok (15, 85) := by rfl
  simp only [_compute_jacoco_coverage, h1]
  norm_num

/-- C1: commit-gate terminal failures perform no commit.  With zero
staged changes `git_commit` returns the no-staged-changes failure
whatever the coverage inputs are, and with staged changes, a threshold,
and a successfully computed percent strictly below it, it returns the
threshold failure; neither result is `committedR`, the only constructor
produced by the `git commit` invocation, so the commit subprocess never
runs and history is unchanged. -/
theorem git_commit_terminal_failures_no_commit
    (stagedStdout : String) (covEnv : String → CovFile) (commitRC : String → Int)
    (message : String) :
    (∀ (include_coverage : Bool) (jacoco_xml : Option String)
        (coverage_threshold : Option ℚ),
      linesOf stagedStdout = [] →
      git_commit stagedStdout covEnv commitRC message include_coverage jacoco_xml
          coverage_threshold = .ok (.noStagedR "No staged changes to commit.")) ∧
    (∀ (jacoco_xml : Option String) (t percent : ℚ) (covered missed : Int),
      linesOf stagedStdout ≠ [] →
      pyTruthy jacoco_xml = true →
      _compute_jacoco_coverage covEnv (jacoco_xml.getD "") = .ok percent covered missed →
      percent < t →
      git_commit stagedStdout covEnv commitRC message true jacoco_xml (some t) =
        .ok (.thresholdR percent t covered missed)) := by
  constructor
  · intro ic jx th h
    simp [git_commit, h]
  · intro jx t p cv ms hne hjx hcov hlt
    cases hl : linesOf stagedStdout with
    | nil => exact absurd hl hne
    | cons a l => simp [git_commit, hl, hjx, hcov, hlt]

/-- Witness for C1 at concrete inputs: an empty staged list yields the
no-staged failure even with a report and threshold supplied, and a
staged change with threshold 90 against an 85 percent report yields the
threshold failure. -/
theorem git_commit_terminal_failures_no_commit_witness :
    git_commit "" (fun _ => CovFile.parsed report85) (fun _ => 0) "msg"
        true (some "r.xml") (some 90) =
      .ok (.noStagedR "No staged changes to commit.") ∧
    git_commit " M a.py" (fun _ => CovFile.parsed report85) (fun _ => 0) "msg"
        true (some "r.xml") (some 90) =
      .ok (.thresholdR 85 90 85 15) := by
  refine ⟨?_, ?_⟩
  · exact (git_commit_terminal_failures_no_commit "" _ _ "msg").1 true
      (some "r.xml") (some 90) (by decide)
  · exact (git_commit_terminal_failures_no_commit " M a.py" _ _ "msg").2
      (some "r.xml") 90 85 85 15 (by decide) (by decide) compute_report85 (by norm_num)

/-- C2 (code bug): with staged changes, `include_coverage=True` and a
report path whose aggregation fails (here: the file is absent), the
claim says the commit proceeds with a "coverage unknown" annotation and
a structured result is returned.  The code instead raises
`UnboundLocalError`: line 134 builds the annotated message but line 136
immediately overwrites it with an f-string reading the local `percent`,
which is never assigned on this path.  No commit happens and no
structured result is returned. -/
theorem git_commit_coverage_unknown_raises :
    git_commit " M a.py" (fun _ => CovFile.absent) (fun _ => 0) "fix"
        true (some "missing.xml") none = .error (.unboundLocal "percent") := by
  rfl

/-- C3: when coverage is computed successfully and no threshold is
violated, the commit is executed with message exactly
`{base} | Coverage: {percent:.2f}% ({covered}/{covered+missed})`. -/
theorem git_commit_committed_message
    (stagedStdout : String) (covEnv : String → CovFile) (commitRC : String → Int)
    (message : String) (jacoco_xml : Option String) (coverage_threshold : Option ℚ)
    (percent : ℚ) (covered missed : Int)
    (hst : linesOf stagedStdout ≠ [])
    (hjx : pyTruthy jacoco_xml = true)
    (hcov : _compute_jacoco_coverage covEnv (jacoco_xml.getD "") = .ok percent covered missed)
    (hth : ∀ t, coverage_threshold = some t → ¬ percent < t) :
    git_commit stagedStdout covEnv commitRC message true jacoco_xml coverage_threshold =
      .ok (.committedR
        (commitRC (message ++ " | Coverage: " ++ fmt2 percent ++ "% (" ++
          toString covered ++ "/" ++ toString (covered + missed) ++ ")") == 0)
        (message ++ " | Coverage: " ++ fmt2 percent ++ "% (" ++
          toString covered ++ "/" ++ toString (covered + missed) ++ ")")
        (some (percent, covered, missed))) := by
  cases hl : linesOf stagedStdout with
  | nil => exact absurd hl hst
  | cons a l =>
      cases coverage_threshold with
      | none => simp [git_commit, hl, hjx, hcov]
      | some t => simp [git_commit, hl, hjx, hcov, hth t rfl]

/-- Witness for C3: `covered=85, missed=15` gives a `Committed` result
whose message ends with `Coverage: 85.00% (85/100)`. -/
theorem git_commit_committed_message_witness :
    git_commit " M a.py" (fun _ => CovFile.parsed report85) (fun _ => 0) "msg"
        true (some "r.xml") none =
      .ok (.committedR true "msg | Coverage: 85.00% (85/100)" (some (85, 85, 15))) := by
  have h := git_commit_committed_message " M a.py" (fun _ => CovFile.parsed report85)
    (fun _ => 0) "msg" (some "r.xml") none 85 85 15 (by decide) (by decide)
    compute_report85 (fun t ht => by cases ht)
  rw [h, fmt2_85]
  rfl

/-- C10 (implicit): with staged changes, when `include_coverage` is
false or no report path is supplied, the coverage gate is skipped
entirely: the commit runs with the unmodified base message and a `None`
coverage payload, whatever `coverage_threshold` was passed. -/
theorem git_commit_no_report_skips_gate
    (stagedStdout : String) (covEnv : String → CovFile) (commitRC : String → Int)
    (message : String) (include_coverage : Bool) (jacoco_xml : Option String)
    (coverage_threshold : Option ℚ)
    (hst : linesOf stagedStdout ≠ [])
    (hoff : include_coverage = false ∨ jacoco_xml = none) :
    git_commit stagedStdout covEnv commitRC message include_coverage jacoco_xml
        coverage_threshold =
      .ok (.committedR (commitRC message == 0) message none) := by
  cases hl : linesOf stagedStdout with
  | nil => exact absurd hl hst
  | cons a l =>
      rcases hoff with h | h <;> simp [git_commit, hl, h, pyTruthy]

/-- Witness for C10: `include_coverage=True` with `jacoco_xml=None` and
a threshold of 90 still commits with the base message. -/
theorem git_commit_no_report_skips_gate_witness :
    git_commit " M a.py" (fun _ => CovFile.parsed report85) (fun _ => 0) "msg"
        true none (some 90) =
      .ok (.committedR true "msg" none) := by
  have h := git_commit_no_report_skips_gate " M a.py"
    (fun _ => CovFile.parsed report85) (fun _ => 0) "msg" true none (some 90)
    (by decide) (Or.inr rfl)
  rw [h]
  rfl

/-- C8: two-attempt push policy.  Once the branch is determined, a plain
push with exit code zero is the only attempt and yields success, while a
non-zero plain push is followed by exactly one upstream-setting push and
no more, the final result reflecting that second attempt. -/
theorem git_push_two_attempt_policy
    (remote : String) (branchQuery plainPush upPush : RunResult)
    (hbr : pyStrip branchQuery.stdout ≠ "") :
    (plainPush.returncode = 0 →
      (git_push remote branchQuery plainPush upPush).attempts =
          [["git", "push", remote, pyStrip branchQuery.stdout]] ∧
        (git_push remote branchQuery plainPush upPush).okFlag = true) ∧
    (plainPush.returncode ≠ 0 →
      (git_push remote branchQuery plainPush upPush).attempts =
          [["git", "push", remote, pyStrip branchQuery.stdout],
           ["git", "push", "-u", remote, pyStrip branchQuery.stdout]] ∧
        (git_push remote branchQuery plainPush upPush).okFlag =
          (upPush.returncode == 0)) := by
  constructor
  · intro h
    simp [git_push, hbr, beq_iff_eq, h]
  · intro h
    simp [git_push, hbr, beq_iff_eq, h]

/-- Witness for C8: a failing plain push (exit 1) triggers exactly the
upstream-setting retry, whose exit 0 makes the final result ok. -/
theorem git_push_two_attempt_policy_witness :
    (git_push "origin" ⟨0, "main\n", ""⟩ ⟨1, "", "rejected"⟩ ⟨0, "ok", ""⟩).attempts =
        [["git", "push", "origin", "main"],
         ["git", "push", "-u", "origin", "main"]] ∧
      (git_push "origin" ⟨0, "main\n", ""⟩ ⟨1, "", "rejected"⟩ ⟨0, "ok", ""⟩).okFlag =
        ((0 : Int) == 0) := by
  exact (git_push_two_attempt_policy "origin" ⟨0, "main\n", ""⟩ ⟨1, "", "rejected"⟩
    ⟨0, "ok", ""⟩ (by decide)).2 (by decide)

theorem counterVal_of_int_some (c : XEl) (key : String) (n : Int)
    (h : counterInt c key = some n) : counterVal c key = .ok n := by
  unfold counterInt at h
  unfold counterVal
  cases hg : c.get key with
  | none => rw [hg] at h; cases h
  | some s =>
      rw [hg] at h
      simp only [Option.some_bind] at h
      simp [h]

/-- The accumulation loop of the aggregator computes exactly the sums of
the (parsed) `missed` and `covered` attributes of the LINE counters, in
either order of addition. -/
theorem sumLine_eq (l : List XEl)
    (h : ∀ c ∈ l, c.get "type" = some "LINE" → counterOK c) :
    sumLine l = .ok
      (((l.filter (fun c => c.get "type" = some "LINE")).filterMap
          (fun c => counterInt c "missed")).sum,
       ((l.filter (fun c => c.get "type" = some "LINE")).filterMap
          (fun c => counterInt c "covered")).sum) := by
  induction l with
  | nil => rfl
  | cons c rest ih =>
      have hrest := ih (fun x hx => h x (List.mem_cons_of_mem c hx))
      by_cases hty : c.get "type" = some "LINE"
      · have hok := h c (List.mem_cons_self c rest) hty
        obtain ⟨m, hm⟩ := Option.isSome_iff_exists.mp hok.1
        obtain ⟨cv, hcv⟩ := Option.isSome_iff_exists.mp hok.2
        simp [sumLine, hty, counterVal_of_int_some c "missed" m hm,
          counterVal_of_int_some c "covered" cv hcv, hrest, hm, hcv, Int.add_comm]
      · simp [sumLine, hty, hrest]

/-- C4: for every report that parses (all LINE counters carry integer
attributes), the aggregator's covered and missed totals are the sums of
the covered and missed attributes of every LINE-kind counter in the
whole tree, percent is `covered / (covered + missed) * 100`, and percent
is `0.0` (inside a success result) when the denominator is zero. -/
theorem compute_coverage_totals (env : String → CovFile) (path : String) (root : XEl)
    (henv : env path = .parsed root)
    (hwf : ∀ c ∈ lineCounters root, counterOK c) :
    _compute_jacoco_coverage env path =
      .ok (if 0 < specMissedTotal root + specCoveredTotal root
            then (specCoveredTotal root : ℚ) /
                ((specMissedTotal root : ℚ) + (specCoveredTotal root : ℚ)) * 100
            else 0)
        (specCoveredTotal root) (specMissedTotal root) := by
  have h : ∀ c ∈ (XEl.descend root).filter (fun c => c.tag = "counter"),
      c.get "type" = some "LINE" → counterOK c := by
    intro c hc hty
    refine hwf c ?_
    unfold lineCounters
    exact List.mem_filter.mpr ⟨hc, by simp [hty]⟩
  have hs := sumLine_eq _ h
  simp only [_compute_jacoco_coverage, henv, hs, specMissedTotal, specCoveredTotal,
    lineCounters]
  norm_num

/-- Witness for C4 at a report with no LINE counters at all: the zero
denominator yields percent `0.0` inside a success result. -/
theorem compute_coverage_totals_witness :
    _compute_jacoco_coverage (fun _ => CovFile.parsed reportEmpty) "r.xml" =
      .ok 0 0 0 := by
  have h := compute_coverage_totals (fun _ => CovFile.parsed reportEmpty) "r.xml"
    reportEmpty rfl (by decide)
  rw [h]
  rfl

/-- Paths surviving the staging filter match no exclusion pattern, in
either their repo-relative or repo-root-joined form. -/
theorem filterPaths_no_match (repo_dir : String) (pats : List String)
    (statusStdout : String) :
    ∀ p ∈ filterPaths repo_dir pats statusStdout, ∀ pat ∈ pats,
      fnmatchPy p pat = false ∧ fnmatchPy (osPathJoin repo_dir p) pat = false := by
  intro p hp pat hpat
  unfold filterPaths at hp
  rw [List.mem_filterMap] at hp
  obtain ⟨ln, hln, h⟩ := hp
  simp only at h
  split at h
  · exact absurd h (by simp)
  · rename_i hcond
    rw [Option.some_inj] at h
    subst h
    rw [List.any_eq_true] at hcond
    push_neg at hcond
    have hb := hcond pat hpat
    simp only [ne_eq, Bool.not_eq_true, Bool.or_eq_false_iff] at hb
    exact hb

/-- C7: staging-filter exclusion.  Every file passed to the staging
operation matches no exclusion pattern in either its repo-relative or
its repo-root-joined form, and when the filtered set is empty the tool
returns immediately without invoking `git add` at all. -/
theorem git_add_all_staging_filter
    (repo_dir statusStdout : String) (exclude_patterns : Option (List String))
    (addRC : List String → Int) :
    (∀ p ∈ (git_add_all repo_dir statusStdout exclude_patterns addRC).addedFiles,
      ∀ pat ∈ exclude_patterns.getD defaultExcludePatterns,
        fnmatchPy p pat = false ∧ fnmatchPy (osPathJoin repo_dir p) pat = false) ∧
    (filterPaths repo_dir (exclude_patterns.getD defaultExcludePatterns) statusStdout = [] →
      git_add_all repo_dir statusStdout exclude_patterns addRC = ⟨false, [], true⟩) := by
  constructor
  · intro p hp pat hpat
    have hsub : p ∈ filterPaths repo_dir (exclude_patterns.getD defaultExcludePatterns)
        statusStdout := by
      unfold git_add_all at hp
      by_cases hf : (filterPaths repo_dir (exclude_patterns.getD defaultExcludePatterns)
          statusStdout).isEmpty
      · simp [hf] at hp
      · simpa [hf] using hp
    exact filterPaths_no_match repo_dir _ statusStdout p hsub pat hpat
  · intro h
    unfold git_add_all
    simp [h]

/-- Witness for C7: with the default exclusion list, the surviving path
`a.py` matches neither `*.log` nor its absolute form. -/
theorem git_add_all_staging_filter_witness :
    fnmatchPy "a.py" "*.log" = false ∧
      fnmatchPy (osPathJoin "/r" "a.py") "*.log" = false := by
  exact (git_add_all_staging_filter "/r" " M a.py" none (fun _ => 0)).1
    "a.py" (by decide) "*.log" (by decide)

theorem fsFind_append_left (fs l : List (String × String)) (p v : String)
    (h : fsFind fs p = some v) : fsFind (fs ++ l) p = some v := by
  induction fs with
  | nil => cases h
  | cons e rest ih =>
      rw [List.cons_append]
      by_cases he : e.1 = p
      · simp only [fsFind, if_pos he] at h ⊢
        exact h
      · simp only [fsFind, if_neg he] at h ⊢
        exact ih h

theorem fsFind_append_self (fs : List (String × String)) (t v : String)
    (h : fsFind fs t = none) : fsFind (fs ++ [(t, v)]) t = some v := by
  induction fs with
  | nil => simp [fsFind]
  | cons e rest ih =>
      rw [List.cons_append]
      by_cases he : e.1 = t
      · simp only [fsFind, if_pos he] at h
        cases h
      · simp only [fsFind, if_neg he] at h ⊢
        exact ih h

/-- One generator iteration never changes the binding of any path that
is already present. -/
theorem genStep_preserves (ep : String → String)
    (em : String → List (String × String)) (tr : String) (acc : GenR)
    (f : SrcFile) (p v : String) (h : fsFind acc.fs p = some v) :
    fsFind (genStep ep em tr acc f).fs p = some v := by
  simp only [genStep]
  split
  · exact h
  · split
    · exact h
    · exact fsFind_append_left _ _ _ _ h

/-- The generator fold never changes the binding of a preexisting
path. -/
theorem genFold_preserves (ep : String → String)
    (em : String → List (String × String)) (tr : String) (files : List SrcFile)
    (acc : GenR) (p v : String) (h : fsFind acc.fs p = some v) :
    fsFind ((files.foldl (genStep ep em tr) acc).fs) p = some v := by
  induction files generalizing acc with
  | nil => simpa using h
  | cons f rest ih =>
      rw [List.foldl_cons]
      exact ih _ (genStep_preserves ep em tr acc f p v h)

theorem genFold_keeps_present (ep : String → String)
    (em : String → List (String × String)) (tr : String) (files : List SrcFile)
    (acc : GenR) (p : String) (h : (fsFind acc.fs p).isSome = true) :
    (fsFind ((files.foldl (genStep ep em tr) acc).fs) p).isSome = true := by
  obtain ⟨v, hv⟩ := Option.isSome_iff_exists.mp h
  rw [genFold_preserves ep em tr files acc p v hv]
  rfl

/-- After one generator iteration on `f`, the target of `f` exists
whenever `f` has at least one extracted method. -/
theorem genStep_target_present (ep : String → String)
    (em : String → List (String × String)) (tr : String) (acc : GenR)
    (f : SrcFile) (hm : (em f.text).isEmpty = false) :
    (fsFind ((genStep ep em tr acc f).fs) (targetPath tr (ep f.text) f.stem)).isSome = true := by
  simp only [genStep]
  split
  · rename_i hc
    exact absurd hc (by simp [hm])
  · split
    · rename_i hex
      exact hex
    · rename_i hex
      have hnone : fsFind acc.fs (targetPath tr (ep f.text) f.stem) = none := by
        cases hfind : fsFind acc.fs (targetPath tr (ep f.text) f.stem) with
        | none => rfl
        | some w => exact absurd (by rw [hfind]; rfl) hex
      rw [fsFind_append_self _ _ _ hnone]
      rfl

/-- After the whole generator run, the target of every source file with
at least one extracted method exists. -/
theorem genFold_targets_present (ep : String → String)
    (em : String → List (String × String)) (tr : String) (files : List SrcFile)
    (acc : GenR) :
    ∀ f ∈ files, (em f.text).isEmpty = false →
      (fsFind ((files.foldl (genStep ep em tr) acc).fs)
        (targetPath tr (ep f.text) f.stem)).isSome = true := by
  induction files generalizing acc with
  | nil => intro f hf; cases hf
  | cons f0 rest ih =>
      intro f hf hm
      rw [List.foldl_cons]
      rcases List.mem_cons.mp hf with h | h
      · subst h
        exact genFold_keeps_present ep em tr rest _ _
          (genStep_target_present ep em tr acc f hm)
      · exact ih _ f h hm

/-- The generator fold is a no-op from a state where every target
already exists. -/
theorem genFold_noop (ep : String → String)
    (em : String → List (String × String)) (tr : String) (files : List SrcFile)
    (acc : GenR)
    (h : ∀ f ∈ files, (em f.text).isEmpty = false →
      (fsFind acc.fs (targetPath tr (ep f.text) f.stem)).isSome = true) :
    files.foldl (genStep ep em tr) acc = acc := by
  induction files with
  | nil => rfl
  | cons f rest ih =>
      rw [List.foldl_cons]
      have hstep : genStep ep em tr acc f = acc := by
        simp only [genStep]
        split
        · rfl
        · rename_i hm
          have hm' : (em f.text).isEmpty = false := by
            revert hm
            cases (em f.text).isEmpty <;> simp
          split
          · rfl
          · rename_i hex
            exact absurd (h f (List.mem_cons_self f rest) hm') hex
      rw [hstep]
      exact ih (fun g hg => h g (List.mem_cons_of_mem f hg))

/-- C9: skeleton generation is idempotent and never overwrites.  Every
path present before the run keeps its exact contents afterwards (no
target that already exists is written), and a second run over the same
source files from the resulting filesystem creates zero files and
changes nothing. -/
theorem generate_tests_idempotent_no_overwrite
    (extractPkg : String → String) (extractMethods : String → List (String × String))
    (test_root : String) (fs0 : List (String × String)) (files : List SrcFile) :
    (∀ p v, fsFind fs0 p = some v →
      fsFind (generate_tests extractPkg extractMethods test_root fs0 files).fs p = some v) ∧
    generate_tests extractPkg extractMethods test_root
        (generate_tests extractPkg extractMethods test_root fs0 files).fs files =
      ⟨(generate_tests extractPkg extractMethods test_root fs0 files).fs, 0⟩ := by
  constructor
  · intro p v h
    exact genFold_preserves extractPkg extractMethods test_root files ⟨fs0, 0⟩ p v h
  · unfold generate_tests
    exact genFold_noop extractPkg extractMethods test_root files _
      (fun f hf hm => genFold_targets_present extractPkg extractMethods test_root
        files ⟨fs0, 0⟩ f hf hm)

/-- Witness for C9: a preexisting file keeps its contents through a
run that creates a fresh skeleton next to it. -/
theorem generate_tests_idempotent_no_overwrite_witness :
    fsFind (generate_tests (fun _ => "com.ex") (fun _ => [("f", "")]) "t"
        [("keep.txt", "x")] [⟨"Foo", "class Foo"⟩]).fs "keep.txt" = some "x" := by
  exact (generate_tests_idempotent_no_overwrite (fun _ => "com.ex")
    (fun _ => [("f", "")]) "t" [("keep.txt", "x")] [⟨"Foo", "class Foo"⟩]).1
    "keep.txt" "x" (by decide)

theorem counterInt_of_counterVal_ok (c : XEl) (key : String) (n : Int)
    (h : counterVal c key = .ok n) : counterInt c key = some n := by
  unfold counterVal at h
  unfold counterInt
  cases hg : c.get key with
  | none =>
      simp only [hg] at h
      cases h
  | some s =>
      simp only [hg] at h
      cases hp : parseIntPy s with
      | none =>
          simp only [hp] at h
          cases h
      | some m =>
          simp only [hp, Except.ok.injEq] at h
          simp [hp, h]

theorem findP_eq_head_filter {α : Type} (p : α → Bool) (l : List α) :
    l.find? p = (l.filter p).head? := by
  induction l with
  | nil => rfl
  | cons a l ih =>
      by_cases h : p a
      · rw [List.find?_cons_of_pos _ h, List.filter_cons_of_pos h, List.head?_cons]
      · rw [List.find?_cons_of_neg _ h, List.filter_cons_of_neg h, ih]

theorem flatMap_toList_eq_filterMap {α β : Type} (f : α → Option β) (l : List α) :
    (l.flatMap (fun x => (f x).toList)) = l.filterMap f := by
  induction l with
  | nil => rfl
  | cons a l ih =>
      cases h : f a with
      | none =>
          simp only [List.flatMap_cons, List.filterMap_cons, h, Option.toList_none,
            List.nil_append, ih]
      | some b =>
          simp only [List.flatMap_cons, List.filterMap_cons, h, Option.toList_some,
            List.singleton_append, ih]

theorem flatMap_congr_local {α β : Type} (l : List α) (f g : α → List β)
    (h : ∀ x ∈ l, f x = g x) : l.flatMap f = l.flatMap g := by
  induction l with
  | nil => rfl
  | cons a l ih =>
      rw [List.flatMap_cons, List.flatMap_cons, h a (List.mem_cons_self a l),
        ih (fun x hx => h x (List.mem_cons_of_mem a hx))]

theorem unitsOfCounters_cons_line (pkgName clsName : Option String) (c : XEl)
    (rest : List XEl) (hty : c.get "type" = some "LINE") (m cv : Int)
    (hm : counterInt c "missed" = some m) (hcv : counterInt c "covered" = some cv) :
    unitsOfCounters pkgName clsName (c :: rest) =
      (if 0 < m then [⟨pkgName, clsName, m, cv⟩] else []) ++
        unitsOfCounters pkgName clsName rest := by
  unfold unitsOfCounters
  rw [List.filter_cons_of_pos (by simp [hty]), List.filterMap_cons]
  simp only [hm, hcv]
  by_cases h0 : 0 < m
  · simp [h0]
  · simp [h0]

theorem unitsOfCounters_cons_other (pkgName clsName : Option String) (c : XEl)
    (rest : List XEl) (hty : ¬ c.get "type" = some "LINE") :
    unitsOfCounters pkgName clsName (c :: rest) =
      unitsOfCounters pkgName clsName rest := by
  unfold unitsOfCounters
  rw [List.filter_cons_of_neg (by simp [hty])]

/-- The per-class counter loop succeeds on well-formed counters and
produces exactly one entry per LINE counter with positive missed
count. -/
theorem classLineUnits_eq (pkgName clsName : Option String) (l : List XEl)
    (h : ∀ c ∈ l, c.get "type" = some "LINE" → counterOK c) :
    classLineUnits pkgName clsName l = .ok (unitsOfCounters pkgName clsName l) := by
  induction l with
  | nil => rfl
  | cons c rest ih =>
      have hrest := ih (fun x hx => h x (List.mem_cons_of_mem c hx))
      by_cases hty : c.get "type" = some "LINE"
      · have hok := h c (List.mem_cons_self c rest) hty
        obtain ⟨m, hm⟩ := Option.isSome_iff_exists.mp hok.1
        obtain ⟨cv, hcv⟩ := Option.isSome_iff_exists.mp hok.2
        rw [unitsOfCounters_cons_line pkgName clsName c rest hty m cv hm hcv]
        simp only [classLineUnits, if_pos hty, counterVal_of_int_some c "missed" m hm,
          counterVal_of_int_some c "covered" cv hcv, hrest]
        by_cases h0 : 0 < m
        · simp [h0]
        · simp [h0]
      · simp only [classLineUnits, if_neg hty, hrest,
          unitsOfCounters_cons_other pkgName clsName c rest hty]

/-- The class loop succeeds on well-formed classes and concatenates the
per-class contributions in class order. -/
theorem classesUnits_eq (pkgName : Option String) (classes : List XEl)
    (h : ∀ cls ∈ classes, classCountersOK cls) :
    classesUnits pkgName classes =
      .ok (classes.flatMap (fun cls =>
        unitsOfCounters pkgName (cls.get "name") (taggedChildren cls "counter"))) := by
  induction classes with
  | nil => rfl
  | cons cls rest ih =>
      have h1 := classLineUnits_eq pkgName (cls.get "name")
        (taggedChildren cls "counter") (h cls (List.mem_cons_self cls rest))
      have hrest := ih (fun x hx => h x (List.mem_cons_of_mem cls hx))
      simp only [classesUnits, taggedChildren] at h1 ⊢
      rw [h1, hrest]
      rfl

/-- The package loop succeeds on well-formed reports and concatenates
the per-package contributions in report order. -/
theorem packagesUnits_eq (pkgs : List XEl)
    (h : ∀ pkg ∈ pkgs, ∀ cls ∈ taggedChildren pkg "class", classCountersOK cls) :
    packagesUnits pkgs =
      .ok (pkgs.flatMap (fun pkg =>
        (taggedChildren pkg "class").flatMap (fun cls =>
          unitsOfCounters (pkg.get "name") (cls.get "name")
            (taggedChildren cls "counter")))) := by
  induction pkgs with
  | nil => rfl
  | cons pkg rest ih =>
      have h1 := classesUnits_eq (pkg.get "name") (taggedChildren pkg "class")
        (h pkg (List.mem_cons_self pkg rest))
      have hrest := ih (fun x hx => h x (List.mem_cons_of_mem pkg hx))
      simp only [packagesUnits, taggedChildren] at h1 ⊢
      rw [h1, hrest]
      rfl

/-- When a class has at most one LINE counter, its code-side
contribution list coincides with the spec-side optional unit. -/
theorem unitsOfCounters_eq_unitOfClass (pkgName : Option String) (cls : XEl)
    (hu : classLineUnique cls) :
    unitsOfCounters pkgName (cls.get "name") (taggedChildren cls "counter") =
      (unitOfClass pkgName cls).toList := by
  unfold unitsOfCounters unitOfClass theLineCounter
  unfold classLineUnique at hu
  rw [findP_eq_head_filter]
  cases hF : (taggedChildren cls "counter").filter
      (fun c => c.get "type" = some "LINE") with
  | nil => rfl
  | cons c rest =>
      rw [hF] at hu
      have hrest : rest = [] := by
        cases rest with
        | nil => rfl
        | cons d t => simp at hu
      subst hrest
      simp only [List.filterMap_cons, List.filterMap_nil, List.head?_cons]
      cases hm : counterInt c "missed" with
      | none => rfl
      | some m =>
          cases hcv : counterInt c "covered" with
          | none => rfl
          | some cv =>
              by_cases h0 : 0 < m
              · simp [h0]
              · simp [h0]

/-- C5: per-class gap analysis.  For every report whose LINE counters
parse and where each class has (as the spec presupposes) a single LINE
counter, `analyze_coverage` succeeds and returns exactly one
`UncoveredUnit` per class whose LINE counter has `missed > 0`, in
report traversal order, each paired with the recommendation string
`Increase tests for {package}.{class} (missed lines: {missed})`; the
function is pure, so a second run on the same report returns the same
lists in the same order by definitional equality. -/
theorem analyze_coverage_gap_list (root : XEl)
    (hwf : reportClassesOK root) (hu : reportLineUnique root) :
    analyze_coverage (.parsed root) =
      .ok (.okR (uncoveredSpec root) ((uncoveredSpec root).map recText)) := by
  simp only [analyze_coverage]
  unfold reportClassesOK at hwf
  have hp := packagesUnits_eq ((XEl.descend root).filter (fun p => p.tag = "package"))
    (by
      intro pkg hpkg cls hcls
      exact hwf pkg hpkg cls hcls)
  rw [hp]
  have he : ((XEl.descend root).filter (fun p => p.tag = "package")).flatMap
        (fun pkg => (taggedChildren pkg "class").flatMap (fun cls =>
          unitsOfCounters (pkg.get "name") (cls.get "name")
            (taggedChildren cls "counter"))) = uncoveredSpec root := by
    unfold uncoveredSpec reportPackages
    refine flatMap_congr_local _ _ _ ?_
    intro pkg hpkg
    rw [← flatMap_toList_eq_filterMap]
    refine flatMap_congr_local _ _ _ ?_
    intro cls hcls
    exact unitsOfCounters_eq_unitOfClass (pkg.get "name") cls (hu pkg hpkg cls hcls)
  rw [he]

/-- Witness for C5: on a report with one fully covered class and one
class with three missed lines, the analysis returns exactly one unit,
for the class `Bar` with `missed_lines = 3`, and the matching
recommendation string. -/
theorem analyze_coverage_gap_list_witness :
    analyze_coverage (.parsed reportTwoClasses) =
      .ok (.okR [⟨some "com.ex", some "Bar", 3, 5⟩]
        ["Increase tests for com.ex.Bar (missed lines: 3)"]) := by
  have h := analyze_coverage_gap_list reportTwoClasses (by decide) (by decide)
  rw [h]
  rfl

/-- C6 counterexample: the claim says a per-class entry with a missing
counter attribute is skipped and the batch completes with results for
the remaining classes, with only top-level decode failures returned as
structured failures.  On the code, a class whose LINE counter lacks its
`missed` attribute aborts the whole analysis with an uncaught
`TypeError` (the good class `Good`, missed=2, produces no result), and
a top-level decode failure also escapes as the parse exception instead
of a structured result. -/
theorem analyze_coverage_no_skip_counterexample :
    analyze_coverage (.parsed reportBadClass) =
      .error "TypeError: int() argument is None for attribute missed" ∧
    analyze_coverage (.malformed "not well-formed (invalid token)") =
      .error "not well-formed (invalid token)" :=
  ⟨rfl, rfl⟩

theorem classLineUnits_ok_counterOK (pkgName clsName : Option String)
    (counters : List XEl) (l : List UncoveredUnit)
    (h : classLineUnits pkgName clsName counters = .ok l) :
    ∀ c ∈ counters, c.get "type" = some "LINE" → counterOK c := by
  induction counters generalizing l with
  | nil => intro c hc; cases hc
  | cons c0 rest ih =>
      intro c hc hty
      rcases List.mem_cons.mp hc with rfl | hmem
      · simp only [classLineUnits, if_pos hty] at h
        cases hm : counterVal c "missed" with
        | error e => simp only [hm] at h; cases h
        | ok m =>
            simp only [hm] at h
            cases hcv : counterVal c "covered" with
            | error e => simp only [hcv] at h; cases h
            | ok cv =>
                exact ⟨by rw [counterInt_of_counterVal_ok c "missed" m hm]; rfl,
                       by rw [counterInt_of_counterVal_ok c "covered" cv hcv]; rfl⟩
      · by_cases hty0 : c0.get "type" = some "LINE"
        · simp only [classLineUnits, if_pos hty0] at h
          cases hm : counterVal c0 "missed" with
          | error e => simp only [hm] at h; cases h
          | ok m =>
              simp only [hm] at h
              cases hcv : counterVal c0 "covered" with
              | error e => simp only [hcv] at h; cases h
              | ok cv =>
                  simp only [hcv] at h
                  cases hr : classLineUnits pkgName clsName rest with
                  | error e => simp only [hr] at h; cases h
                  | ok lr => exact ih lr hr c hmem hty
        · simp only [classLineUnits, if_neg hty0] at h
          exact ih l h c hmem hty

theorem classesUnits_ok_forall (pkgName : Option String) (classes : List XEl)
    (l : List UncoveredUnit) (h : classesUnits pkgName classes = .ok l) :
    ∀ cls ∈ classes, ∃ l2, classLineUnits pkgName (cls.get "name")
      (taggedChildren cls "counter") = .ok l2 := by
  induction classes generalizing l with
  | nil => intro cls hcls; cases hcls
  | cons c0 rest ih =>
      intro cls hcls
      simp only [classesUnits] at h
      cases h1 : classLineUnits pkgName (c0.get "name")
          (c0.children.filter (fun c => c.tag = "counter")) with
      | error e => simp only [h1] at h; cases h
      | ok l1 =>
          simp only [h1] at h
          cases h2 : classesUnits pkgName rest with
          | error e => simp only [h2] at h; cases h
          | ok l2 =>
              rcases List.mem_cons.mp hcls with rfl | hmem
              · exact ⟨l1, by simpa [taggedChildren] using h1⟩
              · exact ih l2 h2 cls hmem

theorem packagesUnits_ok_forall (pkgs : List XEl) (l : List UncoveredUnit)
    (h : packagesUnits pkgs = .ok l) :
    ∀ pkg ∈ pkgs, ∃ l2, classesUnits (pkg.get "name")
      (taggedChildren pkg "class") = .ok l2 := by
  induction pkgs generalizing l with
  | nil => intro pkg hpkg; cases hpkg
  | cons p0 rest ih =>
      intro pkg hpkg
      simp only [packagesUnits] at h
      cases h1 : classesUnits (p0.get "name")
          (p0.children.filter (fun c => c.tag = "class")) with
      | error e => simp only [h1] at h; cases h
      | ok l1 =>
          simp only [h1] at h
          cases h2 : packagesUnits rest with
          | error e => simp only [h2] at h; cases h
          | ok l2 =>
              rcases List.mem_cons.mp hpkg with rfl | hmem
              · exact ⟨l1, by simpa [taggedChildren] using h1⟩
              · exact ih l2 h2 pkg hmem

/-- C6 (amended): `analyze_coverage` tolerates no malformed per-class
entry.  Whenever it returns a result list at all, every LINE counter of
every class in the report parsed successfully — equivalently, a single
class entry with a missing or non-integer counter attribute aborts the
whole analysis with an uncaught exception and no partial results (see
the counterexample) — and a top-level decode failure also propagates as
the parse exception, not as a structured failure; only the surefire
test-report parser (`_parse_surefire_reports`) skips malformed files in
batch mode. -/
theorem analyze_coverage_no_partial_results (root : XEl)
    (u : List UncoveredUnit) (rs : List String)
    (h : analyze_coverage (.parsed root) = .ok (.okR u rs)) :
    (∀ pkg ∈ reportPackages root, ∀ cls ∈ taggedChildren pkg "class",
      classCountersOK cls) ∧
    (∀ msg, analyze_coverage (.malformed msg) = .error msg) := by
  refine ⟨?_, fun msg => rfl⟩
  simp only [analyze_coverage] at h
  have hex : ∃ l, packagesUnits ((XEl.descend root).filter
      (fun p => p.tag = "package")) = .ok l := by
    cases hq : packagesUnits ((XEl.descend root).filter
        (fun p => p.tag = "package")) with
    | error e => simp only [hq] at h; cases h
    | ok l => exact ⟨l, rfl⟩
  obtain ⟨l, hl⟩ := hex
  intro pkg hpkg cls hcls
  have h1 := packagesUnits_ok_forall _ l hl pkg (by simpa [reportPackages] using hpkg)
  obtain ⟨l2, hl2⟩ := h1
  have h2 := classesUnits_ok_forall _ _ l2 hl2 cls hcls
  obtain ⟨l3, hl3⟩ := h2
  exact classLineUnits_ok_counterOK _ _ _ l3 hl3

/-- Witness for the amended C6: applied to the well-formed two-class
report, whose analysis does succeed, yielding that the class `Bar` has
parseable LINE counters; and a concrete decode failure propagates. -/
theorem analyze_coverage_no_partial_results_witness :
    classCountersOK (XEl.el "class" [("name", "Bar")] [mkLineCounter "3" "5"]) ∧
      analyze_coverage (.malformed "boom") = .error "boom" := by
  have h := analyze_coverage_no_partial_results reportTwoClasses
    [⟨some "com.ex", some "Bar", 3, 5⟩]
    ["Increase tests for com.ex.Bar (missed lines: 3)"] rfl
  refine ⟨?_, h.2 "boom"⟩
  refine h.1 (XEl.el "package" [("name", "com.ex")]
      [XEl.el "class" [("name", "Foo")] [mkLineCounter "0" "10"],
       XEl.el "class" [("name", "Bar")] [mkLineCounter "3" "5"]]) ?_
    (XEl.el "class" [("name", "Bar")] [mkLineCounter "3" "5"]) ?_
  · show _ ∈ reportPackages reportTwoClasses
    have e : reportPackages reportTwoClasses =
        [XEl.el "package" [("name", "com.ex")]
          [XEl.el "class" [("name", "Foo")] [mkLineCounter "0" "10"],
           XEl.el "class" [("name", "Bar")] [mkLineCounter "3" "5"]]] := rfl
    rw [e]
    exact List.mem_singleton.mpr rfl
  · show _ ∈ taggedChildren _ "class"
    have e : taggedChildren (XEl.el "package" [("name", "com.ex")]
        [XEl.el "class" [("name", "Foo")] [mkLineCounter "0" "10"],
         XEl.el "class" [("name", "Bar")] [mkLineCounter "3" "5"]]) "class" =
        [XEl.el "class" [("name", "Foo")] [mkLineCounter "0" "10"],
         XEl.el "class" [("name", "Bar")] [mkLineCounter "3" "5"]] := rfl
    rw [e]
    exact List.mem_cons_of_mem _ (List.mem_singleton.mpr rfl)
